import Mathlib

/-!
Verification development for the kms-screenshot capture tool.

The C sources (`kms-screenshot.c`) and the GLSL compute shader
(`hdr_tonemap.comp`) are shallowly embedded below.  Machine integers are
modelled as `Nat` with explicit `% 2 ^ w` where overflow matters; byte
buffers are functions `Nat → Nat` whose values are reduced `% 256` at each
read (a `uint8_t` load); GLSL floating-point arithmetic is idealised over
the reals.
-/

/-! ## DRM pixel-format codes (drm_fourcc.h values used by the program) -/

def DRM_FORMAT_XRGB8888 : Nat := 0x34325258

def DRM_FORMAT_ARGB8888 : Nat := 0x34325241

def DRM_FORMAT_XBGR8888 : Nat := 0x34324258

def DRM_FORMAT_ABGR8888 : Nat := 0x34324241

def DRM_FORMAT_RGB565 : Nat := 0x36314752

def DRM_FORMAT_ABGR16161616 : Nat := 0x38344241

def DRM_FORMAT_MOD_LINEAR : Nat := 0

/-- Little-endian load of `n` bytes starting at `base` (each byte is a
`uint8_t`, hence the `% 256`).  Models the C accesses
`*(uint32_t *)p`, `*(uint16_t *)p` and `*(uint64_t *)p` on a
little-endian host. -/
def readLE (src : Nat → Nat) (base : Nat) : Nat → Nat
  | 0 => 0
  | n + 1 => src base % 256 + 256 * readLE src (base + 1) n

/-- One destination byte of `convert_to_rgb24` (kms-screenshot.c:678-765):
byte channel `c` (0 = R, 1 = G, 2 = B) of destination pixel `(x, y)`.
Bit operations of the C source are rendered over `Nat`:
`v >> k` is `v / 2 ^ k`, `v & 0xFF` is `v % 256`, `v & 0xFFFF` is
`v % 65536`, `v & 0x1F` is `v % 32`, `v & 0x3F` is `v % 64`,
`v << k` is `v * 2 ^ k`.  The final branch is the `default:` case of the
C switch, whose `memset` stores 0. -/
def pixelByte (src : Nat → Nat) (format stride x y c : Nat) : Nat :=
  if format = DRM_FORMAT_XRGB8888 ∨ format = DRM_FORMAT_ARGB8888 then
    let pixel := readLE src (y * stride + 4 * x) 4
    if c = 0 then pixel / 2 ^ 16 % 256
    else if c = 1 then pixel / 2 ^ 8 % 256
    else pixel % 256
  else if format = DRM_FORMAT_XBGR8888 ∨ format = DRM_FORMAT_ABGR8888 then
    let pixel := readLE src (y * stride + 4 * x) 4
    if c = 0 then pixel % 256
    else if c = 1 then pixel / 2 ^ 8 % 256
    else pixel / 2 ^ 16 % 256
  else if format = DRM_FORMAT_RGB565 then
    let pixel := readLE src (y * stride + 2 * x) 2
    if c = 0 then pixel / 2 ^ 11 % 32 * 2 ^ 3
    else if c = 1 then pixel / 2 ^ 5 % 64 * 2 ^ 2
    else pixel % 32 * 2 ^ 3
  else if format = DRM_FORMAT_ABGR16161616 then
    let pixel := readLE src (y * stride + 8 * x) 8
    if c = 0 then pixel % 65536 / 2 ^ 8
    else if c = 1 then pixel / 2 ^ 16 % 65536 / 2 ^ 8
    else pixel / 2 ^ 32 % 65536 / 2 ^ 8
  else 0

/-- `convert_to_rgb24(src, dst, width, height, format, stride)`
(kms-screenshot.c:678-765).  The C loops write destination byte
`y * width * 3 + x * 3 + c` exactly once, so the updated destination is
modelled as a function of the byte index; bytes beyond the
`width * height * 3` raster keep their prior value `dst0`. -/
def convert_to_rgb24 (src dst0 : Nat → Nat) (width height format stride : Nat) :
    Nat → Nat :=
  fun i =>
    if i < width * height * 3 then
      pixelByte src format stride (i % (width * 3) / 3) (i / (width * 3)) (i % 3)
    else dst0 i

/-- The format codes recognised by the `switch` in `convert_to_rgb24`. -/
def recognizedFormatB (format : Nat) : Bool :=
  (format == DRM_FORMAT_XRGB8888) || (format == DRM_FORMAT_ARGB8888) ||
  (format == DRM_FORMAT_XBGR8888) || (format == DRM_FORMAT_ABGR8888) ||
  (format == DRM_FORMAT_RGB565) || (format == DRM_FORMAT_ABGR16161616)

/-- The `default:` branch of `convert_to_rgb24` prints
`"Unsupported pixel format: 0x%08x (%c%c%c%c)"` naming the format; this
models the emitted diagnostic (`some format` when one is emitted). -/
def convert_to_rgb24_diag (format : Nat) : Option Nat :=
  if recognizedFormatB format = true then none else some format

/-- Source bytes per pixel of each recognised format. -/
def format_bpp (format : Nat) : Nat :=
  if format = DRM_FORMAT_RGB565 then 2
  else if format = DRM_FORMAT_ABGR16161616 then 8
  else if recognizedFormatB format = true then 4
  else 0

/-! ## KMS discovery: `find_primary_framebuffer` (kms-screenshot.c:1444-1477) -/

/-- Result of `drmModeGetFB2` for one plane: width and height of the bound
framebuffer. -/
structure DrmFB where
  width : Nat
  height : Nat
deriving DecidableEq

/-- One enumerated plane: its currently-bound framebuffer id (`0` when
unbound) together with the outcome of the `drmModeGetFB2` query
(`none` when the query fails). -/
structure PlaneInfo where
  fb_id : Nat
  fb2 : Option DrmFB
deriving DecidableEq

/-- The loop body state of `find_primary_framebuffer`:
`best_fb_id` and `max_size` fold over the enumerated planes.  A `none`
entry models a failed `drmModeGetPlane`.  `size` is the `uint32_t`
product `fb2->width * fb2->height`, hence the `% 2 ^ 32`. -/
def fpf_fold : List (Option PlaneInfo) → Nat → Nat → Nat
  | [], best, _ => best
  | none :: rest, best, maxSize => fpf_fold rest best maxSize
  | some pl :: rest, best, maxSize =>
    if pl.fb_id = 0 then fpf_fold rest best maxSize
    else
      match pl.fb2 with
      | none => fpf_fold rest best maxSize
      | some fb =>
        if fb.width * fb.height % 2 ^ 32 > maxSize then
          fpf_fold rest pl.fb_id (fb.width * fb.height % 2 ^ 32)
        else fpf_fold rest best maxSize

/-- The C cast `(int)best_fb_id` of a `uint32_t`. -/
def toInt32 (n : Nat) : Int :=
  if n < 2 ^ 31 then (n : Int) else (n : Int) - 2 ^ 32

/-- `find_primary_framebuffer(drm_fd)`: `none` models a failed
`drmModeGetPlaneResources`; otherwise the plane list is folded and
`best_fb_id > 0 ? (int)best_fb_id : -1` is returned. -/
def find_primary_framebuffer (planeRes : Option (List (Option PlaneInfo))) : Int :=
  match planeRes with
  | none => -1
  | some ps =>
    let best := fpf_fold ps 0 0
    if 0 < best then toInt32 best else -1

/-- Claim-side view (spec §4.C): the planes with a non-zero bound
framebuffer id whose metadata query succeeded, as `(fb_id, width·height)`
pairs in enumeration order.  The product here is the exact mathematical
product, unlike the `uint32_t` size inside `fpf_fold`. -/
def activeSize (p : Option PlaneInfo) : Option (Nat × Nat) :=
  match p with
  | none => none
  | some pl =>
    if pl.fb_id = 0 then none
    else
      match pl.fb2 with
      | none => none
      | some fb => some (pl.fb_id, fb.width * fb.height)

def activePlanes (ps : List (Option PlaneInfo)) : List (Nat × Nat) :=
  ps.filterMap activeSize

/-- Side conditions under which the `uint32_t` arithmetic of
`find_primary_framebuffer` agrees with the mathematical product: every
successfully fetched active plane has a positive product below `2 ^ 32`
and an fb id representable as a positive `int`. -/
def planeOkB (p : Option PlaneInfo) : Bool :=
  match p with
  | none => true
  | some pl =>
    if pl.fb_id = 0 then true
    else
      match pl.fb2 with
      | none => false
      | some fb =>
        decide (pl.fb_id < 2 ^ 31) && decide (0 < fb.width * fb.height) &&
          decide (fb.width * fb.height < 2 ^ 32)

/-! ## Listing path: `list_kms_devices` (kms-screenshot.c:1400-1442) and the
`--list` branch of `main` (kms-screenshot.c:2074-2078) -/

/-- `list_kms_devices` returns `-1` when `drmModeGetPlaneResources` fails
and `0` otherwise. -/
def list_kms_devices (planeResOk : Bool) : Int :=
  if planeResOk then 0 else -1

/-- The `--list` branch of `main`: the status of `list_kms_devices` is
discarded (`list_kms_devices(drm_fd); close(drm_fd); return 0;`). -/
def main_exit_list (planeResOk : Bool) : Int :=
  let _ := list_kms_devices planeResOk
  0

/-! ## Acquisition orchestrator
(`capture_framebuffer_with_vulkan_fallback`, `capture_framebuffer`,
`capture_framebuffer_amdgpu` and the dispatch in `main`,
kms-screenshot.c:901-1153, 1156-1398, 1940-1980, 2093-2111) -/

/-- The environment a capture run observes: driver identity, framebuffer
modifier, and the success/failure of each acquisition step. -/
structure CaptureWorld where
  driverName : String
  modifier : Nat
  fb2Ok : Bool
  vulkanInitOk : Bool
  vulkanDeswizzleOk : Bool
  amdgpuCaptureOk : Bool
  dumbShadowOk : Bool
deriving DecidableEq

/-- The three acquisition strategies of spec §2 / §4.G. -/
inductive Strategy where
  | vulkanCompute
  | dmaCopy
  | dumbShadow
deriving DecidableEq

/-- `capture_framebuffer_amdgpu` (kms-screenshot.c:901-1153): the SDMA copy
path; every failing step returns `-1`, success returns `0`.  There is no
further fallback inside it. -/
def capture_framebuffer_amdgpu (w : CaptureWorld) : Int :=
  if w.amdgpuCaptureOk then 0 else -1

/-- `capture_framebuffer_with_vulkan_fallback` (kms-screenshot.c:1940-1980),
returning its result together with the list of strategies it attempted.
For a tiled framebuffer it tries the Vulkan compute path (strategy E);
on any Vulkan failure — init or deswizzle — it falls back to
`capture_framebuffer_amdgpu` (strategy D) and returns D's status. -/
def capture_framebuffer_with_vulkan_fallback (w : CaptureWorld) :
    Int × List Strategy :=
  if w.fb2Ok = false then (-1, [])
  else if w.modifier ≠ 0 ∧ w.modifier ≠ DRM_FORMAT_MOD_LINEAR then
    if w.vulkanInitOk && w.vulkanDeswizzleOk then (0, [Strategy.vulkanCompute])
    else (capture_framebuffer_amdgpu w, [Strategy.vulkanCompute, Strategy.dmaCopy])
  else (capture_framebuffer_amdgpu w, [Strategy.dmaCopy])

/-- `capture_framebuffer` (kms-screenshot.c:1156-1398): on amdgpu it
re-dispatches to `capture_framebuffer_amdgpu`; for every other driver it
runs the dumb-buffer shadow path. -/
def capture_framebuffer (w : CaptureWorld) : Int × List Strategy :=
  if w.driverName = "amdgpu" then
    (capture_framebuffer_amdgpu w, [Strategy.dmaCopy])
  else if w.fb2Ok = false then (-1, [])
  else (if w.dumbShadowOk then 0 else -1, [Strategy.dumbShadow])

/-- The capture dispatch in `main` (kms-screenshot.c:2093-2111): amdgpu
devices go through `capture_framebuffer_with_vulkan_fallback`, all others
through `capture_framebuffer`. -/
def main_capture (w : CaptureWorld) : Int × List Strategy :=
  if w.driverName = "amdgpu" then capture_framebuffer_with_vulkan_fallback w
  else capture_framebuffer w

/-- `main`'s exit code for a capture run: `result == 0 ? 0 : 1`. -/
def main_exit_capture (w : CaptureWorld) : Int :=
  if (main_capture w).1 = 0 then 0 else 1

/-! ## Dumb-buffer shadow copy (kms-screenshot.c:1277-1315): the
CPU-mappable branch converts each source pixel assuming ABGR16161616,
reading a 64-bit word and packing an ARGB8888 word.  The source pixel
format is not consulted. -/

/-- The per-pixel body of the copy loop: extract 16-bit A, B, G, R channels
from the 64-bit source word and pack `((a>>8)<<24)|((r>>8)<<16)|((g>>8)<<8)|(b>>8)`. -/
def dumb_copy_word (srcPixel : Nat) : Nat :=
  let a := srcPixel / 2 ^ 48 % 65536
  let b := srcPixel / 2 ^ 32 % 65536
  let g := srcPixel / 2 ^ 16 % 65536
  let r := srcPixel % 65536
  a / 2 ^ 8 * 2 ^ 24 + r / 2 ^ 8 * 2 ^ 16 + g / 2 ^ 8 * 2 ^ 8 + b / 2 ^ 8

/-- The 32-bit word the dumb-buffer shadow receives at destination pixel
`(x, y)`: the loop reads `((uint64_t *)(src_map + y * pitch))[x]` and
applies the ABGR16161616 → ARGB8888 reduction unconditionally. -/
def dumb_shadow_copy (srcMap : Nat → Nat) (srcPitch x y : Nat) : Nat :=
  dumb_copy_word (readLE srcMap (y * srcPitch + 8 * x) 8)

/-! ## HDR tone-mapping compute kernel (hdr_tonemap.comp)

GLSL `vec3` arithmetic is componentwise; it is embedded as `ℝ × ℝ × ℝ`
with explicit componentwise operations, and `pow`/`exp` as `Real.rpow` /
`Real.exp`. -/

noncomputable section

abbrev Vec3 := ℝ × ℝ × ℝ

def vmap (f : ℝ → ℝ) (v : Vec3) : Vec3 := (f v.1, f v.2.1, f v.2.2)

def vmap2 (f : ℝ → ℝ → ℝ) (u v : Vec3) : Vec3 :=
  (f u.1 v.1, f u.2.1 v.2.1, f u.2.2 v.2.2)

def vadd (u v : Vec3) : Vec3 := (u.1 + v.1, u.2.1 + v.2.1, u.2.2 + v.2.2)

def vsub (u v : Vec3) : Vec3 := (u.1 - v.1, u.2.1 - v.2.1, u.2.2 - v.2.2)

def vmul (u v : Vec3) : Vec3 := (u.1 * v.1, u.2.1 * v.2.1, u.2.2 * v.2.2)

def vdiv (u v : Vec3) : Vec3 := (u.1 / v.1, u.2.1 / v.2.1, u.2.2 / v.2.2)

def vscale (s : ℝ) (v : Vec3) : Vec3 := (s * v.1, s * v.2.1, s * v.2.2)

def vdivs (v : Vec3) (s : ℝ) : Vec3 := (v.1 / s, v.2.1 / s, v.2.2 / s)

def vdot (u v : Vec3) : ℝ := u.1 * v.1 + u.2.1 * v.2.1 + u.2.2 * v.2.2

/-- A GLSL `mat3` stored as its three columns (the constructor order used
throughout the shader). `M * v = c0 * v.x + c1 * v.y + c2 * v.z`. -/
structure Mat3 where
  c0 : Vec3
  c1 : Vec3
  c2 : Vec3

def mulV (M : Mat3) (v : Vec3) : Vec3 :=
  vadd (vadd (vscale v.1 M.c0) (vscale v.2.1 M.c1)) (vscale v.2.2 M.c2)

def mulM (A B : Mat3) : Mat3 :=
  ⟨mulV A B.c0, mulV A B.c1, mulV A B.c2⟩

/-- GLSL `clamp(x, lo, hi)`. -/
def glsl_clamp (x lo hi : ℝ) : ℝ := min (max x lo) hi

/-- GLSL `step(edge, x)`. -/
def glsl_step (edge x : ℝ) : ℝ := if x < edge then 0 else 1

/-- GLSL `smoothstep(e0, e1, x)`. -/
def glsl_smoothstep (e0 e1 x : ℝ) : ℝ :=
  let t := glsl_clamp ((x - e0) / (e1 - e0)) 0 1
  t * t * (3 - 2 * t)

/-- GLSL `mix(x, y, a)`. -/
def glsl_mix (x y a : ℝ) : ℝ := x * (1 - a) + y * a

/-- GLSL two-argument `atan(y, x)`. -/
def glsl_atan2 (y x : ℝ) : ℝ :=
  if 0 < x then Real.arctan (y / x)
  else if x < 0 then
    if 0 ≤ y then Real.arctan (y / x) + Real.pi
    else Real.arctan (y / x) - Real.pi
  else if 0 < y then Real.pi / 2
  else if y < 0 then -(Real.pi / 2)
  else 0

/-! PQ (SMPTE ST 2084) constants and inverse transfer function
(hdr_tonemap.comp:18-35). -/

def PQ_m1 : ℝ := 0.1593017578125

def PQ_m2 : ℝ := 78.84375

def PQ_c1 : ℝ := 0.8359375

def PQ_c2 : ℝ := 18.8515625

def PQ_c3 : ℝ := 18.6875

def PQ_MAX_NITS : ℝ := 10000.0

def pq_inverse (pq : Vec3) : Vec3 :=
  let p := vmap (fun t => Real.rpow (max t 0) (1 / PQ_m2)) pq
  let d := vmap (fun t => max (t - PQ_c1) 0) p
  let d2 := vmap (fun t => PQ_c2 - PQ_c3 * t) p
  let lin := vmap2 (fun u v => Real.rpow (u / max v 1e-7) (1 / PQ_m1)) d d2
  vscale PQ_MAX_NITS lin

/-! Color-space matrices (hdr_tonemap.comp:42-97), stored column-major as
in the GLSL `mat3` constructors. -/

def xyz_to_rec709 : Mat3 :=
  ⟨(3.2406, -0.9689, 0.0557), (-1.5372, 1.8758, -0.2040), (-0.4986, 0.0415, 1.0570)⟩

def rec709_to_xyz : Mat3 :=
  ⟨(0.4124, 0.2126, 0.0193), (0.3576, 0.7152, 0.1192), (0.1805, 0.0722, 0.9505)⟩

def xyz_to_rec2020 : Mat3 :=
  ⟨(1.7166084, -0.6666829, 0.0176422), (-0.3556621, 1.6164776, -0.0427763),
    (-0.2533601, 0.0157685, 0.94222867)⟩

def rec2020_to_xyz : Mat3 :=
  ⟨(0.6369736, 0.2627066, 0.0000000), (0.1446172, 0.6779996, 0.0280728),
    (0.1688585, 0.0592938, 1.0608437)⟩

def rec709_to_rec2020 : Mat3 := mulM xyz_to_rec2020 rec709_to_xyz

def rec2020_to_rec709 : Mat3 := mulM xyz_to_rec709 rec2020_to_xyz

def rec709_to_ap1 : Mat3 :=
  ⟨(0.6131, 0.3395, 0.0474), (0.0701, 0.9164, 0.0137), (0.0206, 0.1096, 0.8698)⟩

def ap1_to_rec709 : Mat3 :=
  ⟨(1.7051, -0.6218, -0.0833), (-0.1303, 1.1408, -0.0105), (-0.0240, -0.1290, 1.1530)⟩

def ap0_to_ap1 : Mat3 :=
  ⟨(1.4514, -0.2365, -0.2149), (-0.0766, 1.1762, -0.0997), (0.0083, -0.0060, 0.9977)⟩

def ap1_to_ap0 : Mat3 :=
  ⟨(0.6955, 0.1407, 0.1639), (0.0448, 0.8597, 0.0955), (-0.0055, 0.0040, 1.0015)⟩

/-! Utility functions (hdr_tonemap.comp:104-151). -/

def rgb_to_luminance (rgb : Vec3) : ℝ :=
  vdot rgb (0.2126729, 0.7151522, 0.0721750)

def rgb_to_saturation (rgb : Vec3) : ℝ :=
  let minComp := min (min rgb.1 rgb.2.1) rgb.2.2
  let maxComp := max (max rgb.1 rgb.2.1) rgb.2.2
  (max maxComp 1e-10 - max minComp 1e-10) / max maxComp 1e-2

def safe_pow (color : Vec3) (power : ℝ) : Vec3 :=
  vmap (fun t => Real.rpow (max t 0) power) color

def glow_fwd (ycIn glowGainIn glowMid : ℝ) : ℝ :=
  if ycIn ≤ 2.0 / 3.0 * glowMid then glowGainIn
  else if 2.0 * glowMid ≤ ycIn then 0
  else glowGainIn * (glowMid / ycIn - 0.5)

def sigmoid_shaper (x : ℝ) : ℝ :=
  let t := max (1 - |x / 2|) 0
  let y := 1 + Real.sign x * (1 - t * t)
  y / 2

def aces_tonescale (x : ℝ) : ℝ :=
  (x * (278.5085 * x + 10.7772)) / (x * (293.6045 * x + 88.7122) + 80.6889)

/-! Tone-mapping operators (hdr_tonemap.comp:156-210), scalar per-channel
bodies first, then the componentwise `vec3` versions. -/

def reinhard_tonemap (color : Vec3) : Vec3 :=
  vdiv color (vadd color (1, 1, 1))

def reinhard_extended (color : Vec3) (white_point : ℝ) : Vec3 :=
  let numerator := vmul color (vadd (1, 1, 1) (vdivs color (white_point * white_point)))
  vdiv numerator (vadd (1, 1, 1) color)

/-- Per-channel body of `hable_curve` with
`(A, B, C, D, E, F) = (0.15, 0.50, 0.10, 0.20, 0.02, 0.30)`. -/
def hable_curve_c (x : ℝ) : ℝ :=
  ((x * (0.15 * x + 0.10 * 0.50) + 0.20 * 0.02) /
    (x * (0.15 * x + 0.50) + 0.20 * 0.30)) - 0.02 / 0.30

def hable_curve (x : Vec3) : Vec3 := vmap hable_curve_c x

def hable_tonemap (color : Vec3) : Vec3 :=
  vdiv (hable_curve (vscale 2 color)) (hable_curve (11.2, 11.2, 11.2))

/-- Per-channel body of `uchimura_tonemap` with
`(P, a, m, l, c, b) = (1, 1, 0.22, 0.4, 1.33, 0)`. -/
def uchimura_c (x : ℝ) : ℝ :=
  let P : ℝ := 1
  let a : ℝ := 1
  let m : ℝ := 0.22
  let l : ℝ := 0.4
  let c : ℝ := 1.33
  let b : ℝ := 0
  let l0 := ((P - m) * l) / a
  let S0 := m + l0
  let S1 := m + a * l0
  let C2 := (a * P) / (P - S1)
  let CP := -C2 / P
  let w0 := 1 - glsl_smoothstep 0 m x
  let w2 := glsl_step (m + l0) x
  let w1 := 1 - w0 - w2
  let T := m * Real.rpow (x / m) c + b
  let S := P - (P - S1) * Real.exp (CP * (x - S0))
  let L := m + a * (x - m)
  T * w0 + L * w1 + S * w2

def uchimura_tonemap (x : Vec3) : Vec3 := vmap uchimura_c x

/-- The toe term `m * pow(x / m, c)` of `uchimura_c` with its constants. -/
def uchT (x : ℝ) : ℝ := 0.22 * Real.rpow (x / 0.22) 1.33

/-- The toe blend weight `w0 = 1 - smoothstep(0, m, x)` of `uchimura_c`. -/
def uchW0 (x : ℝ) : ℝ := 1 - glsl_smoothstep 0 0.22 x

/-- The shoulder term `P - (P - S1) * exp(CP * (x - S0))` of `uchimura_c`
with its constants (`S0 = S1 = 0.532`, `CP = -1 / 0.468`). -/
def uchS (x : ℝ) : ℝ :=
  1 - (1 - 0.532) * Real.exp (-(1 / (1 - 0.532)) * (x - 0.532))

/-! ACES implementations (hdr_tonemap.comp:217-302). -/

def aces_narkowicz (color : Vec3) : Vec3 :=
  vmap (fun x =>
    glsl_clamp ((x * (2.51 * x + 0.03)) / (x * (2.43 * x + 0.59) + 0.14)) 0 1) color

def aces_hill (color : Vec3) : Vec3 :=
  let c1 := mulV rec709_to_ap1 color
  let a := vmap (fun x => x * (x + 0.0245786) - 0.000090537) c1
  let b := vmap (fun x => x * (0.983729 * x + 0.4329510) + 0.238081) c1
  mulV ap1_to_rec709 (vdiv a b)

def aces_day (color : Vec3) : Vec3 :=
  let c1 := mulV rec709_to_ap1 color
  let c2 := vscale 0.6 c1
  let c3 := vmap (fun x =>
    glsl_clamp ((x * (x * 2.51 + 0.03)) / (x * (x * 2.43 + 0.59) + 0.14)) 0 1) c2
  mulV ap1_to_rec709 c3

def aces_rrt_full (color : Vec3) : Vec3 :=
  let c1 := mulV rec709_to_ap1 color
  let c2 := mulV ap1_to_ap0 c1
  let c3 := vmap (fun t => max t 0) c2
  let c4 := mulV ap0_to_ap1 c3
  let saturation := rgb_to_saturation c4
  let ycIn := rgb_to_luminance c4
  let s := sigmoid_shaper ((saturation - 0.4) / 0.2)
  let addedGlow := 1 + glow_fwd ycIn (0.05 * s) 0.08
  let c5 := vscale addedGlow c4
  let hue := glsl_atan2 c5.2.1 c5.1
  let centeredHue := hue + 0.2617993878
  let hueWeight0 := glsl_smoothstep 0 1 (1 - |2.0 * centeredHue / 1.0471975512|)
  let hueWeight := hueWeight0 * hueWeight0
  let acesRedR := c5.1 +
    hueWeight * saturation * (0.03 * c5.1) *
      (1 - Real.rpow (c5.1 / (c5.1 + 0.001)) 1.2)
  let c6 := (glsl_mix c5.1 acesRedR 0.6, glsl_mix c5.2.1 c5.2.1 0.6,
    glsl_mix c5.2.2 c5.2.2 0.6)
  let luminance := rgb_to_luminance c6
  let rgbPost := vdivs c6 (max luminance 1e-10)
  let luminancePost := aces_tonescale luminance
  let rgbFinal := vscale luminancePost rgbPost
  let lum2 := rgb_to_luminance rgbFinal
  let desatCoeff0 := max (1 - (lum2 - 0.18) / (2.0 - 0.18)) 0
  let desatCoeff := glsl_smoothstep 0 1 desatCoeff0
  let desat := (glsl_mix lum2 rgbFinal.1 desatCoeff, glsl_mix lum2 rgbFinal.2.1 desatCoeff,
    glsl_mix lum2 rgbFinal.2.2 desatCoeff)
  mulV ap1_to_rec709 desat

/-- `apply_tonemap` dispatcher (hdr_tonemap.comp:308-325). -/
def apply_tonemap (color : Vec3) (mode : ℕ) : Vec3 :=
  match mode with
  | 0 => reinhard_tonemap color
  | 1 => mulV ap1_to_rec709 (aces_narkowicz (mulV rec709_to_ap1 color))
  | 2 => aces_hill color
  | 3 => aces_day color
  | 4 => aces_rrt_full color
  | 5 => hable_tonemap color
  | 6 => reinhard_extended color 4
  | 7 => uchimura_tonemap color
  | _ => aces_hill color

/-- `linear_to_srgb` (hdr_tonemap.comp:328-332). -/
def linear_to_srgb (lin : Vec3) : Vec3 :=
  let higher := vsub (vscale 1.055 (safe_pow lin (1 / 2.4))) (0.055, 0.055, 0.055)
  let lower := vscale 12.92 lin
  (glsl_mix lower.1 higher.1 (glsl_step 0.0031308 lin.1),
   glsl_mix lower.2.1 higher.2.1 (glsl_step 0.0031308 lin.2.1),
   glsl_mix lower.2.2 higher.2.2 (glsl_step 0.0031308 lin.2.2))

def clamp01v (v : Vec3) : Vec3 := vmap (fun t => glsl_clamp t 0 1) v

/-- The `switch (params.tonemapMode)` selecting the normalization factor
(hdr_tonemap.comp:361-383). -/
def normalization_factor (mode : ℕ) : ℝ :=
  match mode with
  | 0 => 100.0
  | 1 => 80.0
  | 2 => 80.0
  | 3 => 80.0
  | 4 => 80.0
  | 5 => 200.0
  | 6 => 120.0
  | 7 => 400.0
  | _ => 100.0

/-- The per-pixel pipeline of the shader `main` (hdr_tonemap.comp:338-402)
for an in-bounds pixel: clamp, inverse PQ, Rec.2020→Rec.709, divide by the
mode-dependent normalization factor, multiply by exposure, tone-map,
clamp, sRGB-encode. -/
def shader_pixel (hdr : Vec3) (exposure : ℝ) (mode : ℕ) : Vec3 :=
  let s1 := clamp01v hdr
  let s2 := pq_inverse s1
  let s3 := mulV rec2020_to_rec709 s2
  let s4 := vdivs s3 (normalization_factor mode)
  let s5 := vscale exposure s4
  let s6 := apply_tonemap s5 mode
  let s7 := clamp01v s6
  linear_to_srgb s7

/-- Modelled from the spec (claim C5's table): the mode-dependent
normalization factors named by the specification — 100 for mode 0,
80 for modes 1-4, 200 for mode 5, 120 for mode 6, 400 for mode 7.
Written independently of `normalization_factor` to be compared with it. -/
def specNormalizationFactor (mode : ℕ) : ℝ :=
  match mode with
  | 0 => 100.0
  | 5 => 200.0
  | 6 => 120.0
  | 7 => 400.0
  | _ => 80.0

end

/-! ## Theorems -/

/-- Destination index arithmetic: byte `(x, y, c)` of the output raster. -/
theorem dst_index_decode (w x y c : Nat) (hx : x < w) (hc : c < 3) :
    (y * (w * 3) + (x * 3 + c)) / (w * 3) = y ∧
    (y * (w * 3) + (x * 3 + c)) % (w * 3) / 3 = x ∧
    (y * (w * 3) + (x * 3 + c)) % 3 = c := by
  have hw3 : 0 < w * 3 := by omega
  have hlt : x * 3 + c < w * 3 := by omega
  refine ⟨?_, ?_, ?_⟩
  · rw [Nat.mul_comm y (w * 3), Nat.mul_add_div hw3, Nat.div_eq_of_lt hlt]
    omega
  · rw [Nat.mul_comm y (w * 3), Nat.mul_add_mod, Nat.mod_eq_of_lt hlt,
      Nat.mul_comm x 3, Nat.mul_add_div (by omega), Nat.div_eq_of_lt hc]
    omega
  · have h3 : y * (w * 3) + (x * 3 + c) = 3 * (y * w + x) + c := by ring
    rw [h3, Nat.mul_add_mod, Nat.mod_eq_of_lt hc]

theorem dst_index_lt (w h x y c : Nat) (hx : x < w) (hy : y < h) (hc : c < 3) :
    y * (w * 3) + (x * 3 + c) < w * h * 3 := by
  have h1 : y * (w * 3) + (x * 3 + c) < (y + 1) * (w * 3) := by
    have : x * 3 + c < w * 3 := by omega
    calc y * (w * 3) + (x * 3 + c) < y * (w * 3) + w * 3 := by omega
      _ = (y + 1) * (w * 3) := by ring
  have h2 : (y + 1) * (w * 3) ≤ h * (w * 3) :=
    Nat.mul_le_mul_right (w * 3) hy
  have h3 : h * (w * 3) = w * h * 3 := by ring
  omega

/-- Evaluating `convert_to_rgb24` at destination byte `(x, y, c)`. -/
theorem convert_at (src dst0 : Nat → Nat) (w h format stride x y c : Nat)
    (hx : x < w) (hy : y < h) (hc : c < 3) :
    convert_to_rgb24 src dst0 w h format stride (y * (w * 3) + (x * 3 + c)) =
      pixelByte src format stride x y c := by
  obtain ⟨hdiv, hmodYes, hmod3⟩ := dst_index_decode w x y c hx hc
  unfold convert_to_rgb24
  rw [if_pos (dst_index_lt w h x y c hx hy hc), hdiv, hmodYes, hmod3]

/-- Claim C2: for an XRGB8888/ARGB8888 source whose 32-bit little-endian
word at `(x, y)` is `0x00RRGGBB`, `convert_to_rgb24` writes the triple
`(R, G, B)` at `(x, y)`; for XBGR8888/ABGR8888 with the same numeric word
it writes `(B, G, R)`. -/
theorem convert_to_rgb24_byte_order (src dst0 : Nat → Nat)
    (w h stride x y R G B : Nat)
    (hw : 1 ≤ w) (hh : 1 ≤ h) (hstride : 4 * w ≤ stride)
    (hx : x < w) (hy : y < h)
    (hR : R < 256) (hG : G < 256) (hB : B < 256)
    (hpix : readLE src (y * stride + 4 * x) 4 = R * 2 ^ 16 + G * 2 ^ 8 + B) :
    (∀ f, f = DRM_FORMAT_XRGB8888 ∨ f = DRM_FORMAT_ARGB8888 →
      convert_to_rgb24 src dst0 w h f stride (y * (w * 3) + (x * 3 + 0)) = R ∧
      convert_to_rgb24 src dst0 w h f stride (y * (w * 3) + (x * 3 + 1)) = G ∧
      convert_to_rgb24 src dst0 w h f stride (y * (w * 3) + (x * 3 + 2)) = B) ∧
    (∀ f, f = DRM_FORMAT_XBGR8888 ∨ f = DRM_FORMAT_ABGR8888 →
      convert_to_rgb24 src dst0 w h f stride (y * (w * 3) + (x * 3 + 0)) = B ∧
      convert_to_rgb24 src dst0 w h f stride (y * (w * 3) + (x * 3 + 1)) = G ∧
      convert_to_rgb24 src dst0 w h f stride (y * (w * 3) + (x * 3 + 2)) = R) := by
  have hv : readLE src (y * stride + 4 * x) 4 < 2 ^ 24 := by rw [hpix]; omega
  constructor
  · intro f hf
    refine ⟨?_, ?_, ?_⟩
    · rw [convert_at src dst0 w h f stride x y _ hx hy (by omega)]
      unfold pixelByte
      rw [if_pos hf]
      show readLE src (y * stride + 4 * x) 4 / 2 ^ 16 % 256 = R
      rw [hpix]; omega
    · rw [convert_at src dst0 w h f stride x y _ hx hy (by omega)]
      unfold pixelByte
      rw [if_pos hf]
      show readLE src (y * stride + 4 * x) 4 / 2 ^ 8 % 256 = G
      rw [hpix]; omega
    · rw [convert_at src dst0 w h f stride x y _ hx hy (by omega)]
      unfold pixelByte
      rw [if_pos hf]
      show readLE src (y * stride + 4 * x) 4 % 256 = B
      rw [hpix]; omega
  · intro f hf
    have hne : ¬(f = DRM_FORMAT_XRGB8888 ∨ f = DRM_FORMAT_ARGB8888) := by
      rcases hf with rfl | rfl <;> simp [DRM_FORMAT_XRGB8888, DRM_FORMAT_ARGB8888,
        DRM_FORMAT_XBGR8888, DRM_FORMAT_ABGR8888]
    refine ⟨?_, ?_, ?_⟩
    · rw [convert_at src dst0 w h f stride x y _ hx hy (by omega)]
      unfold pixelByte
      rw [if_neg hne, if_pos hf]
      show readLE src (y * stride + 4 * x) 4 % 256 = B
      rw [hpix]; omega
    · rw [convert_at src dst0 w h f stride x y _ hx hy (by omega)]
      unfold pixelByte
      rw [if_neg hne, if_pos hf]
      show readLE src (y * stride + 4 * x) 4 / 2 ^ 8 % 256 = G
      rw [hpix]; omega
    · rw [convert_at src dst0 w h f stride x y _ hx hy (by omega)]
      unfold pixelByte
      rw [if_neg hne, if_pos hf]
      show readLE src (y * stride + 4 * x) 4 / 2 ^ 16 % 256 = R
      rw [hpix]; omega

/-- Claim C2 witness: a concrete 2×1 raster with pixel value `0x00A0B0C0`
at `(1, 0)`. -/
theorem convert_to_rgb24_byte_order_witness :
    (convert_to_rgb24 (fun i => if i = 4 then 0xC0 else if i = 5 then 0xB0
        else if i = 6 then 0xA0 else 0) (fun _ => 0) 2 1 DRM_FORMAT_ARGB8888 8
        (0 * (2 * 3) + (1 * 3 + 0)) = 0xA0 ∧
      convert_to_rgb24 (fun i => if i = 4 then 0xC0 else if i = 5 then 0xB0
        else if i = 6 then 0xA0 else 0) (fun _ => 0) 2 1 DRM_FORMAT_ARGB8888 8
        (0 * (2 * 3) + (1 * 3 + 1)) = 0xB0 ∧
      convert_to_rgb24 (fun i => if i = 4 then 0xC0 else if i = 5 then 0xB0
        else if i = 6 then 0xA0 else 0) (fun _ => 0) 2 1 DRM_FORMAT_ARGB8888 8
        (0 * (2 * 3) + (1 * 3 + 2)) = 0xC0) ∧
    (convert_to_rgb24 (fun i => if i = 4 then 0xC0 else if i = 5 then 0xB0
        else if i = 6 then 0xA0 else 0) (fun _ => 0) 2 1 DRM_FORMAT_ABGR8888 8
        (0 * (2 * 3) + (1 * 3 + 0)) = 0xC0 ∧
      convert_to_rgb24 (fun i => if i = 4 then 0xC0 else if i = 5 then 0xB0
        else if i = 6 then 0xA0 else 0) (fun _ => 0) 2 1 DRM_FORMAT_ABGR8888 8
        (0 * (2 * 3) + (1 * 3 + 1)) = 0xB0 ∧
      convert_to_rgb24 (fun i => if i = 4 then 0xC0 else if i = 5 then 0xB0
        else if i = 6 then 0xA0 else 0) (fun _ => 0) 2 1 DRM_FORMAT_ABGR8888 8
        (0 * (2 * 3) + (1 * 3 + 2)) = 0xA0) := by
  have h := convert_to_rgb24_byte_order
    (fun i => if i = 4 then 0xC0 else if i = 5 then 0xB0
      else if i = 6 then 0xA0 else 0) (fun _ => 0) 2 1 8 1 0 0xA0 0xB0 0xC0
    (by decide) (by decide) (by decide) (by decide) (by decide)
    (by decide) (by decide) (by decide) (by decide)
  exact ⟨h.1 DRM_FORMAT_ARGB8888 (Or.inr rfl), h.2 DRM_FORMAT_ABGR8888 (Or.inr rfl)⟩

/-- Claim C3: for an ABGR16161616 source whose 64-bit little-endian word at
`(x, y)` packs 16-bit channels `R, G, B, A` from the least-significant end,
`convert_to_rgb24` writes the triple `(R >> 8, G >> 8, B >> 8)` at `(x, y)`;
the alpha channel does not appear in the output. -/
theorem convert_to_rgb24_abgr16161616_reduction (src dst0 : Nat → Nat)
    (w h stride x y R G B A : Nat)
    (hw : 1 ≤ w) (hh : 1 ≤ h) (hstride : 8 * w ≤ stride)
    (hx : x < w) (hy : y < h)
    (hR : R < 65536) (hG : G < 65536) (hB : B < 65536) (hA : A < 65536)
    (hpix : readLE src (y * stride + 8 * x) 8 =
      R + G * 2 ^ 16 + B * 2 ^ 32 + A * 2 ^ 48) :
    convert_to_rgb24 src dst0 w h DRM_FORMAT_ABGR16161616 stride
        (y * (w * 3) + (x * 3 + 0)) = R / 2 ^ 8 ∧
    convert_to_rgb24 src dst0 w h DRM_FORMAT_ABGR16161616 stride
        (y * (w * 3) + (x * 3 + 1)) = G / 2 ^ 8 ∧
    convert_to_rgb24 src dst0 w h DRM_FORMAT_ABGR16161616 stride
        (y * (w * 3) + (x * 3 + 2)) = B / 2 ^ 8 := by
  have hm : ∀ c, c < 3 → convert_to_rgb24 src dst0 w h DRM_FORMAT_ABGR16161616 stride
      (y * (w * 3) + (x * 3 + c)) = pixelByte src DRM_FORMAT_ABGR16161616 stride x y c :=
    fun c hc => convert_at src dst0 w h _ stride x y c hx hy hc
  refine ⟨?_, ?_, ?_⟩
  · rw [hm _ (by omega)]
    unfold pixelByte
    rw [if_neg (by decide), if_neg (by decide), if_neg (by decide), if_pos rfl]
    show readLE src (y * stride + 8 * x) 8 % 65536 / 2 ^ 8 = R / 2 ^ 8
    rw [hpix]; omega
  · rw [hm _ (by omega)]
    unfold pixelByte
    rw [if_neg (by decide), if_neg (by decide), if_neg (by decide), if_pos rfl]
    show readLE src (y * stride + 8 * x) 8 / 2 ^ 16 % 65536 / 2 ^ 8 = G / 2 ^ 8
    rw [hpix]; omega
  · rw [hm _ (by omega)]
    unfold pixelByte
    rw [if_neg (by decide), if_neg (by decide), if_neg (by decide), if_pos rfl]
    show readLE src (y * stride + 8 * x) 8 / 2 ^ 32 % 65536 / 2 ^ 8 = B / 2 ^ 8
    rw [hpix]; omega

/-- Claim C3 witness: a concrete single-pixel raster whose channels are
`R = 0x1234, G = 0x5678, B = 0x9ABC, A = 0xDEF0`. -/
theorem convert_to_rgb24_abgr16161616_reduction_witness :
    convert_to_rgb24 (fun i => [0x34, 0x12, 0x78, 0x56, 0xBC, 0x9A, 0xF0, 0xDE].getD i 0)
        (fun _ => 0) 1 1 DRM_FORMAT_ABGR16161616 8 (0 * (1 * 3) + (0 * 3 + 0)) =
        0x1234 / 2 ^ 8 ∧
    convert_to_rgb24 (fun i => [0x34, 0x12, 0x78, 0x56, 0xBC, 0x9A, 0xF0, 0xDE].getD i 0)
        (fun _ => 0) 1 1 DRM_FORMAT_ABGR16161616 8 (0 * (1 * 3) + (0 * 3 + 1)) =
        0x5678 / 2 ^ 8 ∧
    convert_to_rgb24 (fun i => [0x34, 0x12, 0x78, 0x56, 0xBC, 0x9A, 0xF0, 0xDE].getD i 0)
        (fun _ => 0) 1 1 DRM_FORMAT_ABGR16161616 8 (0 * (1 * 3) + (0 * 3 + 2)) =
        0x9ABC / 2 ^ 8 :=
  convert_to_rgb24_abgr16161616_reduction
    (fun i => [0x34, 0x12, 0x78, 0x56, 0xBC, 0x9A, 0xF0, 0xDE].getD i 0)
    (fun _ => 0) 1 1 8 0 0 0x1234 0x5678 0x9ABC 0xDEF0
    (by decide) (by decide) (by decide) (by decide) (by decide)
    (by decide) (by decide) (by decide) (by decide) (by decide)

/-- Two sources agreeing on the loaded bytes give the same little-endian
load. -/
theorem readLE_congr (src1 src2 : Nat → Nat) :
    ∀ n base, (∀ j, j < n → src1 (base + j) = src2 (base + j)) →
      readLE src1 base n = readLE src2 base n := by
  intro n
  induction n with
  | zero => intro base _; rfl
  | succ m ih =>
    intro base hagree
    unfold readLE
    rw [show base = base + 0 from rfl, hagree 0 (by omega)]
    rw [ih (base + 0 + 1) fun j hj => by
      have := hagree (1 + j) (by omega)
      have he : base + 0 + 1 + j = base + 0 + (1 + j) := by omega
      rw [he]; exact this]

/-- Claim C7: for every recognised format, the output of `convert_to_rgb24`
is independent of the `stride - w * bpp` trailing padding bytes of each
source row: two sources agreeing on the first `w * bpp` bytes of each of
the `h` rows produce identical outputs. -/
theorem convert_to_rgb24_padding_independent (src1 src2 dst0 : Nat → Nat)
    (w h stride format : Nat)
    (hfmt : recognizedFormatB format = true)
    (hstride : w * format_bpp format ≤ stride)
    (hagree : ∀ y, y < h → ∀ k, k < w * format_bpp format →
      src1 (y * stride + k) = src2 (y * stride + k)) :
    ∀ i, convert_to_rgb24 src1 dst0 w h format stride i =
      convert_to_rgb24 src2 dst0 w h format stride i := by
  intro i
  unfold convert_to_rgb24
  by_cases hi : i < w * h * 3
  · rw [if_pos hi, if_pos hi]
    set x := i % (w * 3) / 3 with hxdef
    set y := i / (w * 3) with hydef
    have hw : 0 < w := Nat.pos_of_ne_zero fun h0 => by subst h0; simp at hi
    have hy : y < h := by
      rw [hydef]
      apply Nat.div_lt_of_lt_mul
      calc i < w * h * 3 := hi
        _ = w * 3 * h := by ring
    have hx : x < w := by
      rw [hxdef]
      apply Nat.div_lt_of_lt_mul
      have := Nat.mod_lt i (show 0 < w * 3 by omega)
      omega
    have hb : ∀ bpp, bpp = format_bpp format →
        ∀ j, j < bpp → src1 (y * stride + bpp * x + j) = src2 (y * stride + bpp * x + j) := by
      intro bpp hbpp j hj
      have h2 : bpp * (x + 1) = bpp * x + bpp := by ring
      have h1 : bpp * x + j < bpp * (x + 1) := by omega
      have hbw : bpp * x + j < w * bpp := by
        calc bpp * x + j < bpp * (x + 1) := h1
          _ ≤ bpp * w := Nat.mul_le_mul_left bpp hx
          _ = w * bpp := Nat.mul_comm bpp w
      have hk : bpp * x + j < w * format_bpp format := by rw [← hbpp]; exact hbw
      have he : y * stride + bpp * x + j = y * stride + (bpp * x + j) := by omega
      rw [he]
      exact hagree y hy (bpp * x + j) hk
    have hfmt6 : format = DRM_FORMAT_XRGB8888 ∨ format = DRM_FORMAT_ARGB8888 ∨
        format = DRM_FORMAT_XBGR8888 ∨ format = DRM_FORMAT_ABGR8888 ∨
        format = DRM_FORMAT_RGB565 ∨ format = DRM_FORMAT_ABGR16161616 := by
      simp only [recognizedFormatB, Bool.or_eq_true, beq_iff_eq] at hfmt
      tauto
    unfold pixelByte
    rcases hfmt6 with rfl | rfl | rfl | rfl | rfl | rfl
    · norm_num [DRM_FORMAT_XRGB8888, DRM_FORMAT_ARGB8888, DRM_FORMAT_XBGR8888,
        DRM_FORMAT_ABGR8888, DRM_FORMAT_RGB565, DRM_FORMAT_ABGR16161616]
      rw [readLE_congr src1 src2 4 (y * stride + 4 * x) (fun j hj => hb 4 (by decide) j hj)]
    · norm_num [DRM_FORMAT_XRGB8888, DRM_FORMAT_ARGB8888, DRM_FORMAT_XBGR8888,
        DRM_FORMAT_ABGR8888, DRM_FORMAT_RGB565, DRM_FORMAT_ABGR16161616]
      rw [readLE_congr src1 src2 4 (y * stride + 4 * x) (fun j hj => hb 4 (by decide) j hj)]
    · norm_num [DRM_FORMAT_XRGB8888, DRM_FORMAT_ARGB8888, DRM_FORMAT_XBGR8888,
        DRM_FORMAT_ABGR8888, DRM_FORMAT_RGB565, DRM_FORMAT_ABGR16161616]
      rw [readLE_congr src1 src2 4 (y * stride + 4 * x) (fun j hj => hb 4 (by decide) j hj)]
    · norm_num [DRM_FORMAT_XRGB8888, DRM_FORMAT_ARGB8888, DRM_FORMAT_XBGR8888,
        DRM_FORMAT_ABGR8888, DRM_FORMAT_RGB565, DRM_FORMAT_ABGR16161616]
      rw [readLE_congr src1 src2 4 (y * stride + 4 * x) (fun j hj => hb 4 (by decide) j hj)]
    · norm_num [DRM_FORMAT_XRGB8888, DRM_FORMAT_ARGB8888, DRM_FORMAT_XBGR8888,
        DRM_FORMAT_ABGR8888, DRM_FORMAT_RGB565, DRM_FORMAT_ABGR16161616]
      rw [readLE_congr src1 src2 2 (y * stride + 2 * x) (fun j hj => hb 2 (by decide) j hj)]
    · norm_num [DRM_FORMAT_XRGB8888, DRM_FORMAT_ARGB8888, DRM_FORMAT_XBGR8888,
        DRM_FORMAT_ABGR8888, DRM_FORMAT_RGB565, DRM_FORMAT_ABGR16161616]
      rw [readLE_congr src1 src2 8 (y * stride + 8 * x) (fun j hj => hb 8 (by decide) j hj)]
  · rw [if_neg hi, if_neg hi]

/-- Claim C7 witness: two 1×1 ARGB8888 rasters with stride 8 agreeing on
the 4 pixel bytes but differing in the 4 padding bytes give the same
output byte. -/
theorem convert_to_rgb24_padding_independent_witness :
    convert_to_rgb24 (fun i => if i < 4 then 7 else 1) (fun _ => 0)
        1 1 DRM_FORMAT_ARGB8888 8 0 =
      convert_to_rgb24 (fun i => if i < 4 then 7 else 2) (fun _ => 0)
        1 1 DRM_FORMAT_ARGB8888 8 0 :=
  convert_to_rgb24_padding_independent
    (fun i => if i < 4 then 7 else 1) (fun i => if i < 4 then 7 else 2) (fun _ => 0)
    1 1 8 DRM_FORMAT_ARGB8888 (by decide) (by decide)
    (by decide) 0

/-- Claim C8: for a format code outside the recognised set, every byte of
the `width * height * 3` destination raster becomes zero — independently
of its prior contents — and a diagnostic naming the format is emitted. -/
theorem convert_to_rgb24_unrecognized_zero_fill (src dst0 : Nat → Nat)
    (w h stride format : Nat)
    (hfmt : recognizedFormatB format = false) :
    (∀ i, i < w * h * 3 → convert_to_rgb24 src dst0 w h format stride i = 0) ∧
    convert_to_rgb24_diag format = some format := by
  have hne : ¬(format = DRM_FORMAT_XRGB8888) ∧ ¬(format = DRM_FORMAT_ARGB8888) ∧
      ¬(format = DRM_FORMAT_XBGR8888) ∧ ¬(format = DRM_FORMAT_ABGR8888) ∧
      ¬(format = DRM_FORMAT_RGB565) ∧ ¬(format = DRM_FORMAT_ABGR16161616) := by
    simp only [recognizedFormatB, Bool.or_eq_false_iff, beq_eq_false_iff_ne, ne_eq] at hfmt
    tauto
  constructor
  · intro i hi
    unfold convert_to_rgb24
    rw [if_pos hi]
    unfold pixelByte
    rw [if_neg (by tauto), if_neg (by tauto), if_neg hne.2.2.2.2.1, if_neg hne.2.2.2.2.2]
  · unfold convert_to_rgb24_diag
    rw [hfmt]
    simp

/-- Claim C8 witness: format code 0 is unrecognised; the first output byte
of a 1×1 conversion over a nonzero prior raster is 0 and the diagnostic
names the format. -/
theorem convert_to_rgb24_unrecognized_zero_fill_witness :
    convert_to_rgb24 (fun _ => 9) (fun _ => 9) 1 1 0 4 0 = 0 ∧
    convert_to_rgb24_diag 0 = some 0 :=
  ⟨(convert_to_rgb24_unrecognized_zero_fill (fun _ => 9) (fun _ => 9) 1 1 4 0
      (by decide)).1 0 (by decide),
    (convert_to_rgb24_unrecognized_zero_fill (fun _ => 9) (fun _ => 9) 1 1 4 0
      (by decide)).2⟩

/-- Claim C10: with `--list`, `main` discards the status of
`list_kms_devices` and exits 0, even though a failed plane enumeration
makes `list_kms_devices` return the negative status `-1`. -/
theorem list_exit_code_zero :
    (∀ planeResOk, main_exit_list planeResOk = 0) ∧
    list_kms_devices false = -1 := by
  constructor
  · intro planeResOk; rfl
  · rfl

/-- Claim C1 counterexample: an amdgpu capture of a tiled framebuffer where
the Vulkan compute strategy fails and the DMA copy strategy fails.  The
orchestrator returns failure (`-1`, process exit 1) and never attempts the
dumb-buffer shadow path, even though that path would succeed here. -/
theorem capture_amdgpu_no_dumb_fallback_counterexample :
    (main_capture ⟨"amdgpu", 1, true, true, false, false, true⟩).1 = -1 ∧
    Strategy.dumbShadow ∉ (main_capture ⟨"amdgpu", 1, true, true, false, false, true⟩).2 ∧
    main_exit_capture ⟨"amdgpu", 1, true, true, false, false, true⟩ = 1 := by
  refine ⟨?_, ?_, ?_⟩ <;> decide

/-- Claim C1 amended: when on the amdgpu driver the external-import compute
strategy (E) fails and the DMA-engine copy strategy (D) then also fails, the
orchestrator returns failure (exit code 1) without attempting the
dumb-buffer shadow path; that path is reachable only for non-amdgpu
drivers. -/
theorem capture_amdgpu_double_failure_returns_failure (w : CaptureWorld)
    (hdrv : w.driverName = "amdgpu")
    (hmod : w.modifier ≠ 0)
    (hfb : w.fb2Ok = true)
    (hvk : w.vulkanDeswizzleOk = false)
    (hamd : w.amdgpuCaptureOk = false) :
    (main_capture w).1 = -1 ∧
    Strategy.dumbShadow ∉ (main_capture w).2 ∧
    main_exit_capture w = 1 := by
  have hmain : main_capture w = capture_framebuffer_with_vulkan_fallback w := by
    unfold main_capture
    rw [if_pos hdrv]
  have hamd2 : capture_framebuffer_amdgpu w = -1 := by
    unfold capture_framebuffer_amdgpu
    rw [hamd]
    rfl
  have hcap : capture_framebuffer_with_vulkan_fallback w =
      (-1, [Strategy.vulkanCompute, Strategy.dmaCopy]) := by
    unfold capture_framebuffer_with_vulkan_fallback
    rw [hfb]
    rw [if_neg (by simp)]
    rw [if_pos ⟨hmod, by unfold DRM_FORMAT_MOD_LINEAR; exact hmod⟩]
    rw [hvk, Bool.and_false]
    rw [if_neg (by simp)]
    rw [hamd2]
  rw [hmain, hcap]
  refine ⟨rfl, by decide, ?_⟩
  unfold main_exit_capture
  rw [hmain, hcap]
  rfl

/-- Claim C1 amended witness. -/
theorem capture_amdgpu_double_failure_returns_failure_witness :
    (main_capture ⟨"amdgpu", 2, true, false, false, false, false⟩).1 = -1 ∧
    Strategy.dumbShadow ∉ (main_capture ⟨"amdgpu", 2, true, false, false, false, false⟩).2 ∧
    main_exit_capture ⟨"amdgpu", 2, true, false, false, false, false⟩ = 1 :=
  capture_amdgpu_double_failure_returns_failure
    ⟨"amdgpu", 2, true, false, false, false, false⟩
    rfl (by decide) rfl rfl rfl

/-- Claim C9 counterexample: a CPU-mappable source holding the 32-bit
ARGB8888 pixel `0xFFFFFFFF` at `(0, 0)` (source pitch 4).  The claim says a
32-bit source is copied without the 64-bit reduction, preserving its pixel
values; instead the copy loop reads 8 bytes and applies the
ABGR16161616 → ARGB8888 reduction, storing `0x00FFFF00 ≠ 0xFFFFFFFF`. -/
theorem dumb_copy_preserves_32bit_counterexample :
    readLE (fun i => if i < 4 then 0xFF else 0) 0 4 = 0xFFFFFFFF ∧
    dumb_shadow_copy (fun i => if i < 4 then 0xFF else 0) 4 0 0 = 0x00FFFF00 ∧
    dumb_shadow_copy (fun i => if i < 4 then 0xFF else 0) 4 0 0 ≠
      readLE (fun i => if i < 4 then 0xFF else 0) 0 4 := by
  refine ⟨?_, ?_, ?_⟩ <;> decide

/-- Claim C9 amended: in the dumb-buffer shadow path the CPU-mappable copy
applies the ABGR16161616 → ARGB8888 reduction unconditionally — the source
pixel format is never consulted — so every source is treated as 64-bit
pixels; for a 64-bit word with 16-bit channels `R, G, B, A` the shadow
receives `((A>>8)<<24) | ((R>>8)<<16) | ((G>>8)<<8) | (B>>8)`, and a
32-bit source is not value-preserved. -/
theorem dumb_copy_unconditional_reduction (srcMap : Nat → Nat)
    (pitch x y R G B A : Nat)
    (hR : R < 65536) (hG : G < 65536) (hB : B < 65536) (hA : A < 65536)
    (hword : readLE srcMap (y * pitch + 8 * x) 8 =
      R + G * 2 ^ 16 + B * 2 ^ 32 + A * 2 ^ 48) :
    dumb_shadow_copy srcMap pitch x y =
      A / 2 ^ 8 * 2 ^ 24 + R / 2 ^ 8 * 2 ^ 16 + G / 2 ^ 8 * 2 ^ 8 + B / 2 ^ 8 := by
  unfold dumb_shadow_copy dumb_copy_word
  rw [hword]
  show (R + G * 2 ^ 16 + B * 2 ^ 32 + A * 2 ^ 48) / 2 ^ 48 % 65536 / 2 ^ 8 * 2 ^ 24 +
      (R + G * 2 ^ 16 + B * 2 ^ 32 + A * 2 ^ 48) % 65536 / 2 ^ 8 * 2 ^ 16 +
      (R + G * 2 ^ 16 + B * 2 ^ 32 + A * 2 ^ 48) / 2 ^ 16 % 65536 / 2 ^ 8 * 2 ^ 8 +
      (R + G * 2 ^ 16 + B * 2 ^ 32 + A * 2 ^ 48) / 2 ^ 32 % 65536 / 2 ^ 8 =
      A / 2 ^ 8 * 2 ^ 24 + R / 2 ^ 8 * 2 ^ 16 + G / 2 ^ 8 * 2 ^ 8 + B / 2 ^ 8
  omega

/-- Claim C9 amended witness. -/
theorem dumb_copy_unconditional_reduction_witness :
    dumb_shadow_copy (fun i => [0x34, 0x12, 0x78, 0x56, 0xBC, 0x9A, 0xF0, 0xDE].getD i 0)
        8 0 0 =
      0xDEF0 / 2 ^ 8 * 2 ^ 24 + 0x1234 / 2 ^ 8 * 2 ^ 16 + 0x5678 / 2 ^ 8 * 2 ^ 8 +
        0x9ABC / 2 ^ 8 :=
  dumb_copy_unconditional_reduction
    (fun i => [0x34, 0x12, 0x78, 0x56, 0xBC, 0x9A, 0xF0, 0xDE].getD i 0)
    8 0 0 0x1234 0x5678 0x9ABC 0xDEF0
    (by decide) (by decide) (by decide) (by decide) (by decide)

/-- Step equations for `fpf_fold` and `activePlanes`. -/
theorem fpf_fold_none (rest : List (Option PlaneInfo)) (best m : Nat) :
    fpf_fold (none :: rest) best m = fpf_fold rest best m := rfl

theorem fpf_fold_zero (pl : PlaneInfo) (rest : List (Option PlaneInfo)) (best m : Nat)
    (h0 : pl.fb_id = 0) :
    fpf_fold (some pl :: rest) best m = fpf_fold rest best m := by
  simp only [fpf_fold]
  rw [if_pos h0]

theorem fpf_fold_nofb (pl : PlaneInfo) (rest : List (Option PlaneInfo)) (best m : Nat)
    (h0 : ¬pl.fb_id = 0) (hfb : pl.fb2 = none) :
    fpf_fold (some pl :: rest) best m = fpf_fold rest best m := by
  simp only [fpf_fold]
  rw [if_neg h0, hfb]

theorem fpf_fold_active (pl : PlaneInfo) (fb : DrmFB) (rest : List (Option PlaneInfo))
    (best m : Nat) (h0 : ¬pl.fb_id = 0) (hfb : pl.fb2 = some fb) :
    fpf_fold (some pl :: rest) best m =
      if fb.width * fb.height % 2 ^ 32 > m then
        fpf_fold rest pl.fb_id (fb.width * fb.height % 2 ^ 32)
      else fpf_fold rest best m := by
  simp only [fpf_fold]
  rw [if_neg h0, hfb]

theorem activePlanes_none (rest : List (Option PlaneInfo)) :
    activePlanes (none :: rest) = activePlanes rest := by
  simp [activePlanes, List.filterMap_cons, activeSize]

theorem activePlanes_zero (pl : PlaneInfo) (rest : List (Option PlaneInfo))
    (h0 : pl.fb_id = 0) :
    activePlanes (some pl :: rest) = activePlanes rest := by
  simp [activePlanes, List.filterMap_cons, activeSize, h0]

theorem activePlanes_nofb (pl : PlaneInfo) (rest : List (Option PlaneInfo))
    (h0 : ¬pl.fb_id = 0) (hfb : pl.fb2 = none) :
    activePlanes (some pl :: rest) = activePlanes rest := by
  simp [activePlanes, List.filterMap_cons, activeSize, h0, hfb]

theorem activePlanes_active (pl : PlaneInfo) (fb : DrmFB) (rest : List (Option PlaneInfo))
    (h0 : ¬pl.fb_id = 0) (hfb : pl.fb2 = some fb) :
    activePlanes (some pl :: rest) =
      (pl.fb_id, fb.width * fb.height) :: activePlanes rest := by
  simp [activePlanes, List.filterMap_cons, activeSize, h0, hfb]

/-- If every active plane's `uint32_t` size is at most the running maximum,
the fold keeps the current best id. -/
theorem fpf_fold_le : ∀ (ps : List (Option PlaneInfo)) (best m : Nat),
    (∀ q ∈ activePlanes ps, q.2 % 2 ^ 32 ≤ m) → fpf_fold ps best m = best := by
  intro ps
  induction ps with
  | nil => intro best m _; rfl
  | cons p rest ih =>
    intro best m hall
    cases p with
    | none =>
      rw [fpf_fold_none]
      exact ih best m fun q hq => hall q (by rwa [activePlanes_none])
    | some pl =>
      by_cases h0 : pl.fb_id = 0
      · rw [fpf_fold_zero pl rest best m h0]
        exact ih best m fun q hq => hall q (by rwa [activePlanes_zero pl rest h0])
      · cases hfb : pl.fb2 with
        | none =>
          rw [fpf_fold_nofb pl rest best m h0 hfb]
          exact ih best m fun q hq => hall q (by rwa [activePlanes_nofb pl rest h0 hfb])
        | some fb =>
          have hsz : fb.width * fb.height % 2 ^ 32 ≤ m :=
            hall _ (by rw [activePlanes_active pl fb rest h0 hfb]; exact List.mem_cons_self _ _)
          rw [fpf_fold_active pl fb rest best m h0 hfb, if_neg (by omega)]
          exact ih best m fun q hq => hall q (by
            rw [activePlanes_active pl fb rest h0 hfb]
            exact List.mem_cons_of_mem _ hq)

/-- If some active plane's `uint32_t` size exceeds the running maximum, the
fold returns the fb id of the first active plane achieving the maximum
size. -/
theorem fpf_fold_gt : ∀ (ps : List (Option PlaneInfo)) (best m : Nat),
    (∃ q ∈ activePlanes ps, m < q.2 % 2 ^ 32) →
    ∃ (j : Nat) (q : Nat × Nat), (activePlanes ps)[j]? = some q ∧
      fpf_fold ps best m = q.1 ∧
      m < q.2 % 2 ^ 32 ∧
      (∀ r ∈ activePlanes ps, r.2 % 2 ^ 32 ≤ q.2 % 2 ^ 32) ∧
      (∀ k, k < j → ∀ r : Nat × Nat, (activePlanes ps)[k]? = some r →
        r.2 % 2 ^ 32 < q.2 % 2 ^ 32) := by
  intro ps
  induction ps with
  | nil =>
    intro best m hex
    obtain ⟨q, hq, _⟩ := hex
    simp [activePlanes] at hq
  | cons p rest ih =>
    intro best m hex
    cases p with
    | none =>
      rw [activePlanes_none] at hex ⊢
      rw [fpf_fold_none]
      exact ih best m hex
    | some pl =>
      by_cases h0 : pl.fb_id = 0
      · rw [activePlanes_zero pl rest h0] at hex ⊢
        rw [fpf_fold_zero pl rest best m h0]
        exact ih best m hex
      · cases hfb : pl.fb2 with
        | none =>
          rw [activePlanes_nofb pl rest h0 hfb] at hex ⊢
          rw [fpf_fold_nofb pl rest best m h0 hfb]
          exact ih best m hex
        | some fb =>
          rw [activePlanes_active pl fb rest h0 hfb] at hex ⊢
          rw [fpf_fold_active pl fb rest best m h0 hfb]
          by_cases hgt : m < fb.width * fb.height % 2 ^ 32
          · rw [if_pos hgt]
            by_cases hex2 : ∃ q ∈ activePlanes rest,
                fb.width * fb.height % 2 ^ 32 < q.2 % 2 ^ 32
            · obtain ⟨j, q, hget, hfold2, hlt, hmax, hearlier⟩ :=
                ih pl.fb_id (fb.width * fb.height % 2 ^ 32) hex2
              refine ⟨j + 1, q, ?_, hfold2, by omega, ?_, ?_⟩
              · rw [List.getElem?_cons_succ]; exact hget
              · intro r hr
                rcases List.mem_cons.1 hr with rfl | hr2
                · exact le_of_lt hlt
                · exact hmax r hr2
              · intro k hk r hget2
                cases k with
                | zero =>
                  rw [List.getElem?_cons_zero] at hget2
                  have : (pl.fb_id, fb.width * fb.height) = r := by
                    exact Option.some_injective _ hget2
                  rw [← this]
                  exact hlt
                | succ k2 =>
                  rw [List.getElem?_cons_succ] at hget2
                  exact hearlier k2 (by omega) r hget2
            · push_neg at hex2
              have hfold2 := fpf_fold_le rest pl.fb_id
                (fb.width * fb.height % 2 ^ 32) hex2
              refine ⟨0, (pl.fb_id, fb.width * fb.height), by simp, hfold2, hgt, ?_, ?_⟩
              · intro r hr
                rcases List.mem_cons.1 hr with rfl | hr2
                · exact le_refl _
                · exact hex2 r hr2
              · intro k hk r _
                omega
          · rw [if_neg hgt]
            obtain ⟨q, hq, hmq⟩ := hex
            rcases List.mem_cons.1 hq with rfl | hq2
            · omega
            · obtain ⟨j, q2, hget, hfold2, hlt, hmax, hearlier⟩ :=
                ih best m ⟨q, hq2, hmq⟩
              refine ⟨j + 1, q2, ?_, hfold2, hlt, ?_, ?_⟩
              · rw [List.getElem?_cons_succ]; exact hget
              · intro r hr
                rcases List.mem_cons.1 hr with rfl | hr2
                · omega
                · exact hmax r hr2
              · intro k hk r hget2
                cases k with
                | zero =>
                  rw [List.getElem?_cons_zero] at hget2
                  have : (pl.fb_id, fb.width * fb.height) = r := by
                    exact Option.some_injective _ hget2
                  rw [← this]
                  omega
                | succ k2 =>
                  rw [List.getElem?_cons_succ] at hget2
                  exact hearlier k2 (by omega) r hget2

/-- Under the `planeOkB` side conditions, every active plane has a nonzero
fb id below `2 ^ 31` and a positive product below `2 ^ 32`. -/
theorem activePlanes_mem_bounds (ps : List (Option PlaneInfo))
    (hwf : ∀ p ∈ ps, planeOkB p = true) :
    ∀ q ∈ activePlanes ps, 0 < q.1 ∧ q.1 < 2 ^ 31 ∧ 0 < q.2 ∧ q.2 < 2 ^ 32 := by
  intro q hq
  rw [activePlanes, List.mem_filterMap] at hq
  obtain ⟨p, hp, hps⟩ := hq
  have hok := hwf p hp
  cases p with
  | none => simp [activeSize] at hps
  | some pl =>
    by_cases h0 : pl.fb_id = 0
    · rw [activeSize, if_pos h0] at hps
      exact absurd hps (by simp)
    · cases hfb : pl.fb2 with
      | none =>
        rw [activeSize, if_neg h0, hfb] at hps
        exact absurd hps (by simp)
      | some fb =>
        rw [activeSize, if_neg h0, hfb] at hps
        rw [planeOkB, if_neg h0, hfb] at hok
        simp only [Bool.and_eq_true, decide_eq_true_eq] at hok
        have hqe : q = (pl.fb_id, fb.width * fb.height) :=
          (Option.some_injective _ hps).symm
        rw [hqe]
        exact ⟨Nat.pos_of_ne_zero h0, hok.1.1, hok.1.2, hok.2⟩

/-- Claim C4: over all planes with a non-zero bound framebuffer id (whose
metadata fetch succeeds and whose `uint32_t` arithmetic does not overflow),
`find_primary_framebuffer` returns the fb id with the maximum
`width * height` product, ties broken by first-seen enumeration order;
with no active plane it returns the negative value `-1`. -/
theorem find_primary_framebuffer_selects_max (ps : List (Option PlaneInfo))
    (hwf : ∀ p ∈ ps, planeOkB p = true) :
    (activePlanes ps = [] → find_primary_framebuffer (some ps) = -1) ∧
    (activePlanes ps ≠ [] →
      ∃ (j : Nat) (q : Nat × Nat), (activePlanes ps)[j]? = some q ∧
        find_primary_framebuffer (some ps) = (q.1 : Int) ∧
        (∀ r ∈ activePlanes ps, r.2 ≤ q.2) ∧
        (∀ k, k < j → ∀ r : Nat × Nat, (activePlanes ps)[k]? = some r →
          r.2 < q.2)) := by
  have hmod : ∀ r ∈ activePlanes ps, r.2 % 2 ^ 32 = r.2 := fun r hr =>
    Nat.mod_eq_of_lt (activePlanes_mem_bounds ps hwf r hr).2.2.2
  have hfp : find_primary_framebuffer (some ps) =
      if 0 < fpf_fold ps 0 0 then toInt32 (fpf_fold ps 0 0) else -1 := rfl
  constructor
  · intro hemp
    have h0 : fpf_fold ps 0 0 = 0 :=
      fpf_fold_le ps 0 0 (by rw [hemp]; intro r hr; simp at hr)
    rw [hfp, h0]
    norm_num
  · intro hne
    obtain ⟨q0, hq0⟩ := List.exists_mem_of_ne_nil (activePlanes ps) hne
    have hb0 := activePlanes_mem_bounds ps hwf q0 hq0
    have hex : ∃ q ∈ activePlanes ps, 0 < q.2 % 2 ^ 32 :=
      ⟨q0, hq0, by rw [hmod q0 hq0]; exact hb0.2.2.1⟩
    obtain ⟨j, q, hget, hfold, _, hmax, hearlier⟩ := fpf_fold_gt ps 0 0 hex
    have hqmem : q ∈ activePlanes ps := by
      have := List.getElem?_eq_some_iff.1 hget
      obtain ⟨hj, hjeq⟩ := this
      rw [← hjeq]
      exact List.getElem_mem hj
    have hqb := activePlanes_mem_bounds ps hwf q hqmem
    refine ⟨j, q, hget, ?_, ?_, ?_⟩
    · rw [hfp, hfold, if_pos hqb.1]
      unfold toInt32
      rw [if_pos hqb.2.1]
    · intro r hr
      have h := hmax r hr
      rwa [hmod r hr, hmod q hqmem] at h
    · intro k hk r hget2
      have hrmem : r ∈ activePlanes ps := by
        obtain ⟨hj, hjeq⟩ := List.getElem?_eq_some_iff.1 hget2
        rw [← hjeq]
        exact List.getElem_mem hj
      have h := hearlier k hk r hget2
      rwa [hmod r hrmem, hmod q hqmem] at h

/-- Claim C4 witness: two planes binding FB 41 (256×256) and FB 40
(1920×1080); the selection returns FB 40 at index 1, the unique maximum. -/
theorem find_primary_framebuffer_selects_max_witness :
    (activePlanes [some ⟨41, some ⟨256, 256⟩⟩, some ⟨40, some ⟨1920, 1080⟩⟩] = [] →
      find_primary_framebuffer
        (some [some ⟨41, some ⟨256, 256⟩⟩, some ⟨40, some ⟨1920, 1080⟩⟩]) = -1) ∧
    (activePlanes [some ⟨41, some ⟨256, 256⟩⟩, some ⟨40, some ⟨1920, 1080⟩⟩] ≠ [] →
      ∃ (j : Nat) (q : Nat × Nat),
        (activePlanes [some ⟨41, some ⟨256, 256⟩⟩, some ⟨40, some ⟨1920, 1080⟩⟩])[j]? =
          some q ∧
        find_primary_framebuffer
          (some [some ⟨41, some ⟨256, 256⟩⟩, some ⟨40, some ⟨1920, 1080⟩⟩]) = (q.1 : Int) ∧
        (∀ r ∈ activePlanes [some ⟨41, some ⟨256, 256⟩⟩, some ⟨40, some ⟨1920, 1080⟩⟩],
          r.2 ≤ q.2) ∧
        (∀ k, k < j → ∀ r : Nat × Nat,
          (activePlanes [some ⟨41, some ⟨256, 256⟩⟩, some ⟨40, some ⟨1920, 1080⟩⟩])[k]? =
            some r → r.2 < q.2)) :=
  find_primary_framebuffer_selects_max
    [some ⟨41, some ⟨256, 256⟩⟩, some ⟨40, some ⟨1920, 1080⟩⟩]
    (by decide)

/-- Claim C5: in the tone-mapping kernel, after the Rec.2020→Rec.709
conversion the pixel is divided by the mode-dependent normalization factor
of the specification's table (100 / 80 / 80 / 80 / 80 / 200 / 120 / 400 for
modes 0..7) and only then multiplied by the push-constant exposure, before
the tone curve is applied. -/
theorem shader_normalization_before_exposure (hdr : Vec3) (exposure : ℝ)
    (mode : ℕ) (hmode : mode ≤ 7) :
    shader_pixel hdr exposure mode =
      linear_to_srgb (clamp01v (apply_tonemap
        (vscale exposure
          (vdivs (mulV rec2020_to_rec709 (pq_inverse (clamp01v hdr)))
            (specNormalizationFactor mode))) mode)) := by
  interval_cases mode <;> rfl

/-- Claim C5 witness. -/
theorem shader_normalization_before_exposure_witness :
    shader_pixel (0, 0, 0) 1 0 =
      linear_to_srgb (clamp01v (apply_tonemap
        (vscale 1
          (vdivs (mulV rec2020_to_rec709 (pq_inverse (clamp01v (0, 0, 0))))
            (specNormalizationFactor 0))) 0)) :=
  shader_normalization_before_exposure (0, 0, 0) 1 0 (by decide)

/-- Monotonicity of the simple Reinhard curve `x / (x + 1)` on `[0, ∞)`. -/
theorem reinhard_c_mono {x y : ℝ} (hx : 0 ≤ x) (hxy : x ≤ y) :
    x / (x + 1) ≤ y / (y + 1) := by
  have hy : 0 ≤ y := hx.trans hxy
  rw [div_le_div_iff (by linarith) (by linarith)]
  nlinarith

/-- Monotonicity of the extended Reinhard curve with white point 4:
`x * (1 + x / 16) / (1 + x)`. -/
theorem reinhard_extended_c_mono {x y : ℝ} (hx : 0 ≤ x) (hxy : x ≤ y) :
    x * (1 + x / (4 * 4)) / (1 + x) ≤ y * (1 + y / (4 * 4)) / (1 + y) := by
  have hy : 0 ≤ y := hx.trans hxy
  rw [div_le_div_iff (by linarith) (by linarith)]
  nlinarith [mul_nonneg (sub_nonneg.2 hxy) (add_nonneg hx hy),
    mul_nonneg (mul_nonneg (sub_nonneg.2 hxy) hx) hy]

/-- Monotonicity of the Hable curve body on `[0, ∞)`. -/
theorem hable_curve_c_mono {x y : ℝ} (hx : 0 ≤ x) (hxy : x ≤ y) :
    hable_curve_c x ≤ hable_curve_c y := by
  have hy : 0 ≤ y := hx.trans hxy
  unfold hable_curve_c
  have hdx : (0 : ℝ) < x * (0.15 * x + 0.50) + 0.20 * 0.30 := by nlinarith
  have hdy : (0 : ℝ) < y * (0.15 * y + 0.50) + 0.20 * 0.30 := by nlinarith
  have hfrac : (x * (0.15 * x + 0.10 * 0.50) + 0.20 * 0.02) /
      (x * (0.15 * x + 0.50) + 0.20 * 0.30) ≤
      (y * (0.15 * y + 0.10 * 0.50) + 0.20 * 0.02) /
      (y * (0.15 * y + 0.50) + 0.20 * 0.30) := by
    rw [div_le_div_iff hdx hdy]
    nlinarith [mul_nonneg (mul_nonneg (sub_nonneg.2 hxy) hx) hy,
      mul_nonneg (sub_nonneg.2 hxy) hx, mul_nonneg (sub_nonneg.2 hxy) hy,
      sub_nonneg.2 hxy]
  linarith

/-- The Hable white-point normaliser `hable_curve_c 11.2` is positive. -/
theorem hable_K_pos : 0 < hable_curve_c 11.2 := by
  unfold hable_curve_c
  norm_num

/-- The smoothstep parameter `t = clamp((x - e0)/(e1 - e0), 0, 1)` lies in
`[0, 1]`, so `smoothstep` lies in `[0, 1]`. -/
theorem glsl_smoothstep_nonneg (e0 e1 x : ℝ) : 0 ≤ glsl_smoothstep e0 e1 x := by
  unfold glsl_smoothstep glsl_clamp
  set t := min (max ((x - e0) / (e1 - e0)) 0) 1 with ht
  have ht0 : 0 ≤ t := le_min (le_max_right _ 0) zero_le_one
  have ht1 : t ≤ 1 := min_le_right _ 1
  show 0 ≤ t * t * (3 - 2 * t)
  nlinarith

theorem glsl_smoothstep_le_one (e0 e1 x : ℝ) : glsl_smoothstep e0 e1 x ≤ 1 := by
  unfold glsl_smoothstep glsl_clamp
  set t := min (max ((x - e0) / (e1 - e0)) 0) 1 with ht
  have ht0 : 0 ≤ t := le_min (le_max_right _ 0) zero_le_one
  have ht1 : t ≤ 1 := min_le_right _ 1
  show t * t * (3 - 2 * t) ≤ 1
  nlinarith [sq_nonneg (1 - t), mul_nonneg (mul_nonneg ht0 ht0) ht0]

/-- `smoothstep(0, e1, ·)` is monotone for a positive edge `e1`. -/
theorem glsl_smoothstep_mono {e1 x y : ℝ} (he : 0 < e1) (hxy : x ≤ y) :
    glsl_smoothstep 0 e1 x ≤ glsl_smoothstep 0 e1 y := by
  unfold glsl_smoothstep glsl_clamp
  set u := min (max ((x - 0) / (e1 - 0)) 0) 1 with hu
  set v := min (max ((y - 0) / (e1 - 0)) 0) 1 with hv
  have hdiv : (x - 0) / (e1 - 0) ≤ (y - 0) / (e1 - 0) := by
    apply div_le_div_of_nonneg_right ?_ (by linarith)
    linarith
  have huv : u ≤ v := min_le_min (max_le_max hdiv (le_refl 0)) (le_refl 1)
  have hu0 : 0 ≤ u := le_min (le_max_right _ 0) zero_le_one
  have hu1 : u ≤ 1 := min_le_right _ 1
  have hv0 : 0 ≤ v := le_min (le_max_right _ 0) zero_le_one
  have hv1 : v ≤ 1 := min_le_right _ 1
  show u * u * (3 - 2 * u) ≤ v * v * (3 - 2 * v)
  nlinarith [mul_nonneg (sub_nonneg.2 huv) (mul_nonneg hu0 hv0),
    mul_nonneg (mul_nonneg hu0 (sub_nonneg.2 hu1)) (sub_nonneg.2 huv),
    mul_nonneg (mul_nonneg hv0 (sub_nonneg.2 hv1)) (sub_nonneg.2 huv),
    mul_nonneg (sub_nonneg.2 hu1) (sub_nonneg.2 huv)]

/-- `uchW0` bounds and monotonicity. -/
theorem uchW0_nonneg (x : ℝ) : 0 ≤ uchW0 x := by
  unfold uchW0
  have := glsl_smoothstep_le_one 0 0.22 x
  linarith

theorem uchW0_le_one (x : ℝ) : uchW0 x ≤ 1 := by
  unfold uchW0
  have := glsl_smoothstep_nonneg 0 0.22 x
  linarith

theorem uchW0_antitone {x y : ℝ} (hxy : x ≤ y) : uchW0 y ≤ uchW0 x := by
  unfold uchW0
  have : glsl_smoothstep 0 0.22 x ≤ glsl_smoothstep 0 0.22 y :=
    glsl_smoothstep_mono (by norm_num) hxy
  linarith

theorem uchW0_eq_zero {x : ℝ} (h : 0.22 ≤ x) : uchW0 x = 0 := by
  unfold uchW0 glsl_smoothstep glsl_clamp
  have h1 : (1 : ℝ) ≤ (x - 0) / (0.22 - 0) := by
    rw [sub_zero, sub_zero, le_div_iff (by norm_num)]
    linarith
  rw [max_eq_left (le_trans zero_le_one h1), min_eq_right h1]
  norm_num

/-- `uchT` is monotone on `[0, ∞)` and lies below the identity on the toe. -/
theorem uchT_mono {x y : ℝ} (hx : 0 ≤ x) (hxy : x ≤ y) : uchT x ≤ uchT y := by
  unfold uchT
  have h1 : Real.rpow (x / 0.22) 1.33 ≤ Real.rpow (y / 0.22) 1.33 :=
    Real.rpow_le_rpow (div_nonneg hx (by norm_num))
      ((div_le_div_right (by norm_num)).2 hxy) (by norm_num)
  nlinarith [h1]

theorem uchT_le_id {x : ℝ} (hx : 0 ≤ x) (hx22 : x ≤ 0.22) : uchT x ≤ x := by
  unfold uchT
  rcases eq_or_lt_of_le hx with heq | hpos
  · have h0 : Real.rpow ((0 : ℝ) / 0.22) 1.33 = 0 := by
      rw [show (0 : ℝ) / 0.22 = 0 by norm_num]
      exact Real.zero_rpow (by norm_num)
    rw [← heq, h0]
    norm_num
  · have h1 : x / 0.22 ≤ 1 := (div_le_one (by norm_num)).2 hx22
    have h0 : 0 < x / 0.22 := div_pos hpos (by norm_num)
    have h2 := Real.rpow_le_rpow_of_exponent_ge h0 h1 (by norm_num : (1 : ℝ) ≤ 1.33)
    rw [Real.rpow_one] at h2
    calc 0.22 * Real.rpow (x / 0.22) 1.33 ≤ 0.22 * (x / 0.22) :=
        mul_le_mul_of_nonneg_left h2 (by norm_num)
      _ = x := by field_simp

theorem uchT_nonneg {x : ℝ} (hx : 0 ≤ x) : 0 ≤ uchT x := by
  unfold uchT
  have h1 : 0 ≤ Real.rpow (x / 0.22) 1.33 :=
    Real.rpow_nonneg (div_nonneg hx (by norm_num : (0:ℝ) ≤ 0.22)) 1.33
  nlinarith [h1]

/-- `uchS` is monotone and bounded below by `0.532` on the shoulder. -/
theorem uchS_mono {x y : ℝ} (hxy : x ≤ y) : uchS x ≤ uchS y := by
  unfold uchS
  have h1 : Real.exp (-(1 / (1 - 0.532)) * (y - 0.532)) ≤
      Real.exp (-(1 / (1 - 0.532)) * (x - 0.532)) := by
    apply Real.exp_le_exp.2
    nlinarith
  nlinarith [h1]

theorem uchS_lb {x : ℝ} (h : 0.532 ≤ x) : 0.532 ≤ uchS x := by
  have h1 := uchS_mono h
  have h0 : uchS 0.532 = 0.532 := by
    unfold uchS
    rw [show -(1 / (1 - (0.532:ℝ))) * ((0.532:ℝ) - 0.532) = 0 by ring, Real.exp_zero]
    norm_num
  linarith

/-- A pointwise convex blend of two monotone functions with an antitone
weight in `[0, 1]` is monotone when the lower function stays below the
upper one. -/
theorem blend_mono {f1x f1y f2x f2y wx wy : ℝ}
    (h1 : f1x ≤ f1y) (h2 : f2x ≤ f2y) (h21x : f2x ≤ f1x) (h21y : f2y ≤ f1y)
    (hw : wy ≤ wx) (hwy0 : 0 ≤ wy) (hwx1 : wx ≤ 1) :
    f2x * wx + f1x * (1 - wx) ≤ f2y * wy + f1y * (1 - wy) := by
  rcases le_total (f1x - f2x) (f1y - f2y) with hg | hg
  · have e1 : wy * (f1y - f2y) ≤ wx * (f1y - f2y) :=
      mul_le_mul_of_nonneg_right hw (by linarith)
    have e2 : wx * ((f1y - f2y) - (f1x - f2x)) ≤ 1 * ((f1y - f2y) - (f1x - f2x)) :=
      mul_le_mul_of_nonneg_right hwx1 (by linarith)
    nlinarith [e1, e2]
  · have e1 : wy * (f1x - f2x) ≤ wx * (f1x - f2x) :=
      mul_le_mul_of_nonneg_right hw (by linarith)
    have e3 : 0 ≤ wy * ((f1x - f2x) - (f1y - f2y)) :=
      mul_nonneg hwy0 (by linarith)
    nlinarith [e1, e3]

/-- On the toe and linear region (`x < S0 = 0.532`) the Uchimura curve is
the `w0`-blend of the toe term and the linear term `L = x`. -/
theorem uchimura_eval_toe {x : ℝ} (h : x < 0.532) :
    uchimura_c x = uchT x * uchW0 x + x * (1 - uchW0 x) := by
  simp only [uchimura_c, glsl_step, uchT, uchW0]
  split_ifs with hc
  · ring
  · exfalso
    apply hc
    norm_num
    linarith

/-- On the shoulder (`x ≥ S0 = 0.532`) the Uchimura curve equals the
shoulder term. -/
theorem uchimura_eval_shoulder {x : ℝ} (h : 0.532 ≤ x) :
    uchimura_c x = uchS x := by
  have hss : glsl_smoothstep 0 0.22 x = 1 := by
    have : uchW0 x = 0 := uchW0_eq_zero (by linarith)
    unfold uchW0 at this
    linarith
  simp only [uchimura_c, glsl_step, uchS, hss]
  split_ifs with hc
  · exfalso
    norm_num at hc
    linarith
  · norm_num

/-- Monotonicity of the toe blend on `[0, 0.22]`. -/
theorem uch_toe_mono {x y : ℝ} (hx : 0 ≤ x) (hxy : x ≤ y) (hy22 : y ≤ 0.22) :
    uchT x * uchW0 x + x * (1 - uchW0 x) ≤ uchT y * uchW0 y + y * (1 - uchW0 y) :=
  blend_mono hxy (uchT_mono hx hxy) (uchT_le_id hx (hxy.trans hy22))
    (uchT_le_id (hx.trans hxy) hy22) (uchW0_antitone hxy) (uchW0_nonneg y)
    (uchW0_le_one x)

/-- The toe blend stays below the identity. -/
theorem uch_toe_le_id {x : ℝ} (hx : 0 ≤ x) (hx22 : x ≤ 0.22) :
    uchT x * uchW0 x + x * (1 - uchW0 x) ≤ x := by
  have h1 := uchT_le_id hx hx22
  have h2 := uchW0_nonneg x
  have h3 := uchW0_le_one x
  nlinarith [mul_le_mul_of_nonneg_right h1 h2]

/-- The scalar Uchimura operator is monotone on `[0, ∞)`. -/
theorem uchimura_c_mono {x y : ℝ} (hx : 0 ≤ x) (hxy : x ≤ y) :
    uchimura_c x ≤ uchimura_c y := by
  by_cases hy5 : y < 0.532
  · have hx5 : x < 0.532 := lt_of_le_of_lt hxy hy5
    rw [uchimura_eval_toe hx5, uchimura_eval_toe hy5]
    by_cases hy2 : y ≤ 0.22
    · exact uch_toe_mono hx hxy hy2
    · push_neg at hy2
      have hwy : uchW0 y = 0 := uchW0_eq_zero (le_of_lt hy2)
      rw [hwy]
      by_cases hx2 : x ≤ 0.22
      · have h1 := uch_toe_le_id hx hx2
        nlinarith [h1]
      · push_neg at hx2
        have hwx : uchW0 x = 0 := uchW0_eq_zero (le_of_lt hx2)
        rw [hwx]
        nlinarith
  · push_neg at hy5
    rw [uchimura_eval_shoulder hy5]
    by_cases hx5 : x < 0.532
    · rw [uchimura_eval_toe hx5]
      have h1 : uchT x * uchW0 x + x * (1 - uchW0 x) ≤ x := by
        by_cases hx2 : x ≤ 0.22
        · exact uch_toe_le_id hx hx2
        · push_neg at hx2
          rw [uchW0_eq_zero (le_of_lt hx2)]
          nlinarith
      have h2 : (0.532 : ℝ) ≤ uchS y := uchS_lb hy5
      linarith
    · push_neg at hx5
      rw [uchimura_eval_shoulder hx5]
      exact uchS_mono hxy

/-- The full per-channel Hable tone map (curve at `2x` over the white-point
normaliser) is monotone on `[0, ∞)`. -/
theorem hable_tonemap_c_mono {x y : ℝ} (hx : 0 ≤ x) (hxy : x ≤ y) :
    hable_curve_c (2 * x) / hable_curve_c 11.2 ≤
      hable_curve_c (2 * y) / hable_curve_c 11.2 :=
  (div_le_div_right hable_K_pos).2
    (hable_curve_c_mono (by linarith) (by linarith))

/-- Claim C6: at fixed exposure, the per-channel tone-curve mapping of
modes 0 (Reinhard), 5 (Hable), 6 (Reinhard-Extended) and 7 (Uchimura) is
monotone non-decreasing: componentwise `0 ≤ v ≤ w` implies
`apply_tonemap v mode ≤ apply_tonemap w mode` componentwise. -/
theorem tonemap_monotone_modes_0_5_6_7 (mode : ℕ)
    (hmode : mode = 0 ∨ mode = 5 ∨ mode = 6 ∨ mode = 7)
    (v w : Vec3)
    (hv1 : 0 ≤ v.1) (hv2 : 0 ≤ v.2.1) (hv3 : 0 ≤ v.2.2)
    (h1 : v.1 ≤ w.1) (h2 : v.2.1 ≤ w.2.1) (h3 : v.2.2 ≤ w.2.2) :
    (apply_tonemap v mode).1 ≤ (apply_tonemap w mode).1 ∧
    (apply_tonemap v mode).2.1 ≤ (apply_tonemap w mode).2.1 ∧
    (apply_tonemap v mode).2.2 ≤ (apply_tonemap w mode).2.2 := by
  rcases hmode with rfl | rfl | rfl | rfl
  · refine ⟨?_, ?_, ?_⟩
    · show v.1 / (v.1 + 1) ≤ w.1 / (w.1 + 1)
      exact reinhard_c_mono hv1 h1
    · show v.2.1 / (v.2.1 + 1) ≤ w.2.1 / (w.2.1 + 1)
      exact reinhard_c_mono hv2 h2
    · show v.2.2 / (v.2.2 + 1) ≤ w.2.2 / (w.2.2 + 1)
      exact reinhard_c_mono hv3 h3
  · refine ⟨?_, ?_, ?_⟩
    · show hable_curve_c (2 * v.1) / hable_curve_c 11.2 ≤
        hable_curve_c (2 * w.1) / hable_curve_c 11.2
      exact hable_tonemap_c_mono hv1 h1
    · show hable_curve_c (2 * v.2.1) / hable_curve_c 11.2 ≤
        hable_curve_c (2 * w.2.1) / hable_curve_c 11.2
      exact hable_tonemap_c_mono hv2 h2
    · show hable_curve_c (2 * v.2.2) / hable_curve_c 11.2 ≤
        hable_curve_c (2 * w.2.2) / hable_curve_c 11.2
      exact hable_tonemap_c_mono hv3 h3
  · refine ⟨?_, ?_, ?_⟩
    · show v.1 * (1 + v.1 / (4 * 4)) / (1 + v.1) ≤
        w.1 * (1 + w.1 / (4 * 4)) / (1 + w.1)
      exact reinhard_extended_c_mono hv1 h1
    · show v.2.1 * (1 + v.2.1 / (4 * 4)) / (1 + v.2.1) ≤
        w.2.1 * (1 + w.2.1 / (4 * 4)) / (1 + w.2.1)
      exact reinhard_extended_c_mono hv2 h2
    · show v.2.2 * (1 + v.2.2 / (4 * 4)) / (1 + v.2.2) ≤
        w.2.2 * (1 + w.2.2 / (4 * 4)) / (1 + w.2.2)
      exact reinhard_extended_c_mono hv3 h3
  · exact ⟨uchimura_c_mono hv1 h1, uchimura_c_mono hv2 h2, uchimura_c_mono hv3 h3⟩

/-- Claim C6 witness. -/
theorem tonemap_monotone_modes_0_5_6_7_witness :
    (apply_tonemap (0, 0, 0) 0).1 ≤ (apply_tonemap (1, 1, 1) 0).1 ∧
    (apply_tonemap (0, 0, 0) 0).2.1 ≤ (apply_tonemap (1, 1, 1) 0).2.1 ∧
    (apply_tonemap (0, 0, 0) 0).2.2 ≤ (apply_tonemap (1, 1, 1) 0).2.2 :=
  tonemap_monotone_modes_0_5_6_7 0 (Or.inl rfl) (0, 0, 0) (1, 1, 1)
    (le_refl 0) (le_refl 0) (le_refl 0)
    (by norm_num) (by norm_num) (by norm_num)
